import Mathlib

/-!
Verification of the office-listing scraper core (`src/scraper/scraper.py`):
record normalization, month derivation, haversine-proximity deduplication
and merge with the persisted collection.

Machine reals (Python floats) are modelled by `ℝ`; Python's dynamic typing
of raw-record coordinate fields is modelled by the sum type `PyVal`, so that
the `TypeError` raised by `round()` on a non-numeric value is observable as
an `Except.error`.  The external geocoding service (`geocode_address`, an
HTTP call to Nominatim) is modelled as a function parameter, and the ambient
`date.today()` as an explicit `Date` parameter.
-/

namespace Scraper

/-- A loosely-typed Python value as it may appear in a raw record's
coordinate fields: a number or a string. -/
inductive PyVal where
  | num (x : ℝ)
  | str (s : String)

/-- A calendar date `(year, month, day)`, as produced by
`datetime.strptime(s, "%Y-%m-%d").date()` and `date.today()`. -/
structure Date where
  year : ℤ
  month : ℤ
  day : ℤ
deriving DecidableEq, Repr

/-- A raw record handed to `normalize_listing` by a site adapter.
Python dict absence (`raw.get(k)` returning `None`) is modelled by
`Option`; the coordinate fields keep Python's loose typing via `PyVal`. -/
structure RawRecord where
  name : Option String := none
  address : Option String := none
  lat : Option PyVal := none
  lng : Option PyVal := none
  grade : Option String := none
  price : Option ℝ := none
  area : Option ℝ := none
  floors : Option ℤ := none
  year : Option ℤ := none
  monthsOnMarket : Option ℤ := none
  singleFloor : Option Bool := none
  postingDate : Option String := none
  sourceUrl : Option String := none

/-- The canonical listing dict built by `normalize_listing` (and read back
from the persisted JSON store by `merge_with_existing`).  `lat`/`lng` are
`Option` because `deduplicate` defensively re-checks their presence. -/
structure Listing where
  name : String := ""
  address : String := ""
  lat : Option ℝ := none
  lng : Option ℝ := none
  grade : String := ""
  price : Option ℝ := none
  area : Option ℝ := none
  floors : Option ℤ := none
  year : Option ℤ := none
  monthsOnMarket : Option ℤ := none
  singleFloor : Option Bool := none
  source : String := ""
  sourceUrl : String := ""
  scrapedAt : Date := ⟨2024, 1, 1⟩

/-! ### Date parsing (`datetime.strptime(s, "%Y-%m-%d")`) -/

/-- Leap-year rule used by `datetime.date` (proleptic Gregorian). -/
def isLeap (y : ℕ) : Bool := y % 4 = 0 && (y % 100 ≠ 0 || y % 400 = 0)

/-- Number of days in a month, as validated by the `datetime.date`
constructor. -/
def daysInMonth (y m : ℕ) : ℕ :=
  if m = 2 then (if isLeap y then 29 else 28)
  else if m = 4 ∨ m = 6 ∨ m = 9 ∨ m = 11 then 30
  else 31

/-- Split a character list at every `'-'` (the literal separators of the
`"%Y-%m-%d"` format string). -/
def splitDash : List Char → List Char → List (List Char)
  | [], cur => [cur.reverse]
  | c :: rest, cur =>
      if c = '-' then cur.reverse :: splitDash rest [] else splitDash rest (c :: cur)

/-- Numeric value of a non-empty all-digit character group; `none` when the
group is empty or contains a non-digit (strptime's `ValueError`). -/
def digitsVal (cs : List Char) : Option ℕ :=
  if cs ≠ [] ∧ cs.all Char.isDigit then
    some (cs.foldl (fun a c => a * 10 + (c.toNat - 48)) 0)
  else none

/-- Models `datetime.strptime(s, "%Y-%m-%d").date()`: exactly three dash-separated
digit groups, a four-digit year, one-or-two-digit month in `1..12` and day
valid for that month; any mismatch is a `ValueError` (here `none`). -/
def parseDate (s : String) : Option Date :=
  match splitDash s.data [] with
  | [ys, ms, ds] =>
    match digitsVal ys, digitsVal ms, digitsVal ds with
    | some y, some m, some d =>
        if ys.length = 4 ∧ ms.length ≤ 2 ∧ ds.length ≤ 2 ∧
            1 ≤ y ∧ 1 ≤ m ∧ m ≤ 12 ∧ 1 ≤ d ∧ d ≤ daysInMonth y m then
          some ⟨(y : ℤ), (m : ℤ), (d : ℤ)⟩
        else none
    | _, _, _ => none
  | _ => none

/-- The function `calculate_months_on_market(posting_date_str)`, with `date.today()`
made explicit.  A falsy (absent or empty) string yields `None`; a parse
failure is caught and yields `None`; otherwise the year/month difference
floored at 0. -/
def calculate_months_on_market (today : Date) (postingDateStr : Option String) : Option ℤ :=
  match postingDateStr with
  | none => none
  | some s =>
    if s = "" then none
    else
      match parseDate s with
      | some posted =>
          some (max 0 ((today.year - posted.year) * 12 + (today.month - posted.month)))
      | none => none

/-- Strict calendar order: `t` is before `p`. -/
def dateBefore (t p : Date) : Prop :=
  t.year < p.year ∨ (t.year = p.year ∧
    (t.month < p.month ∨ (t.month = p.month ∧ t.day < p.day)))

instance (t p : Date) : Decidable (dateBefore t p) := by
  unfold dateBefore; infer_instance

/-! ### Geometry: `math.radians` and the inline `haversine` of `deduplicate` -/

open Real in
/-- Python's `math.radians(x)`. -/
noncomputable def radians (x : ℝ) : ℝ := x * π / 180

open Real in
/-- The inline `haversine(lat1, lng1, lat2, lng2)` of `deduplicate`
(`scraper.py` lines 44-49): all four inputs converted to radians, then
`6371 * 2 * asin(sqrt(a))` with
`a = sin(dlat/2)**2 + cos(lat1)*cos(lat2)*sin(dlng/2)**2`, in kilometres. -/
noncomputable def haversine (lat1 lng1 lat2 lng2 : ℝ) : ℝ :=
  6371 * 2 * arcsin (Real.sqrt
    (sin ((radians lat2 - radians lat1) / 2) ^ 2 +
      cos (radians lat1) * cos (radians lat2) *
        sin ((radians lng2 - radians lng1) / 2) ^ 2))

open Classical in
/-- Python's `round(x, 7)` on an exact value: scale by `10^7`, round half
to even, scale back. -/
noncomputable def pyRound7 (x : ℝ) : ℝ :=
  (if Int.fract (x * 10 ^ 7) = 1 / 2 then
      (if Even ⌊x * 10 ^ 7⌋ then (⌊x * 10 ^ 7⌋ : ℝ) else ((⌊x * 10 ^ 7⌋ + 1 : ℤ) : ℝ))
    else ((round (x * 10 ^ 7) : ℤ) : ℝ)) / 10 ^ 7

/-! ### Deduplication and merge -/

/-- Python truthiness of a possibly-absent numeric dict entry:
present and nonzero. -/
def truthyR : Option ℝ → Prop
  | none => False
  | some x => x ≠ 0

/-- The body of `deduplicate`'s inner loop for one pair: both records carry
truthy coordinates and the haversine distance is under the 100 m (0.1 km)
threshold. -/
def isDupPair (l e : Listing) : Prop :=
  truthyR l.lat ∧ truthyR l.lng ∧ truthyR e.lat ∧ truthyR e.lng ∧
    haversine (l.lat.getD 0) (l.lng.getD 0) (e.lat.getD 0) (e.lng.getD 0) < 0.1

/-- The flag `is_dup` after the inner `for existing in unique` loop: some accepted
listing is within the proximity threshold. -/
def isDup (l : Listing) (unique : List Listing) : Prop :=
  ∃ e ∈ unique, isDupPair l e

open Classical in
/-- One iteration of `deduplicate`'s outer loop: drop the incoming listing
when it duplicates an accepted one, else append it. -/
noncomputable def dedupStep (unique : List Listing) (l : Listing) : List Listing :=
  if isDup l unique then unique else unique ++ [l]

/-- The function `deduplicate(listings)` (`scraper.py` lines 40-64). -/
noncomputable def deduplicate (listings : List Listing) : List Listing :=
  listings.foldl dedupStep []

/-- The merge contract of `merge_with_existing` once the persisted
collection has been read: existing first, then new, then deduplicate. -/
noncomputable def mergeListings (existing newListings : List Listing) : List Listing :=
  deduplicate (existing ++ newListings)

/-- The function `merge_with_existing(new_listings)` (`scraper.py` lines 145-158), with
the outcome of reading the persisted store made explicit: `some existing`
when the file exists and parses, `none` when it is missing or undecodable
(the `json.JSONDecodeError`/`Exception` branch). -/
noncomputable def merge_with_existing
    (readResult : Option (List Listing)) (newListings : List Listing) : List Listing :=
  match readResult with
  | some existing => deduplicate (existing ++ newListings)
  | none => deduplicate newListings

/-! ### Normalization (`normalize_listing`, `scraper.py` lines 102-142) -/

/-- Python truthiness of one loosely-typed value: a nonzero number or a
non-empty string. -/
def truthyPV : PyVal → Prop
  | .num x => x ≠ 0
  | .str s => s ≠ ""

/-- Python truthiness of a possibly-absent loosely-typed dict entry. -/
def truthyV : Option PyVal → Prop
  | none => False
  | some v => truthyPV v

open Classical in
/-- Lines 104-112 of `normalize_listing`: take the raw coordinates; when
either is falsy and a non-empty address is present, replace *both* by the
geocoder's answer (`geo` models the external `geocode_address`, returning
a pair of optional floats). -/
noncomputable def resolveCoords (geo : String → Option ℝ × Option ℝ)
    (raw : RawRecord) : Option PyVal × Option PyVal :=
  if ¬ truthyV raw.lat ∨ ¬ truthyV raw.lng then
    if raw.address.getD "" ≠ "" then
      ((geo (raw.address.getD "")).1.map PyVal.num,
        (geo (raw.address.getD "")).2.map PyVal.num)
    else (raw.lat, raw.lng)
  else (raw.lat, raw.lng)

/-- Lines 117-119: keep an explicit (non-`None`) month count; otherwise
derive from a truthy posting date. -/
def derivedMonths (today : Date) (raw : RawRecord) : Option ℤ :=
  match raw.monthsOnMarket with
  | some m => some m
  | none =>
    match raw.postingDate with
    | some s => if s ≠ "" then calculate_months_on_market today (some s) else none
    | none => none

/-- Lines 123-125: keep an explicit (non-`None`) boolean; otherwise, when
the floor count is truthy (present and nonzero), `floors == 1`. -/
def derivedSingleFloor (raw : RawRecord) : Option Bool :=
  match raw.singleFloor with
  | some b => some b
  | none =>
    match raw.floors with
    | some n => if n ≠ 0 then some (decide (n = 1)) else none
    | none => none

open Classical in
/-- The function `normalize_listing(raw, source)` with the geocoder and `date.today()`
explicit.  `.ok none` is the `return None` discard; `.error ()` is an
uncaught exception (the `TypeError` of `round` on a truthy non-numeric
coordinate); `.ok (some _)` is the returned dict. -/
noncomputable def normalize_listing (geo : String → Option ℝ × Option ℝ)
    (today : Date) (raw : RawRecord) (source : String) : Except Unit (Option Listing) :=
  match resolveCoords geo raw with
  | (some lv, some wv) =>
    if truthyPV lv ∧ truthyPV wv then
      match lv, wv with
      | .num x, .num y =>
          .ok (some
            { name := raw.name.getD "Unknown Office"
              address := raw.address.getD ""
              lat := some (pyRound7 x)
              lng := some (pyRound7 y)
              grade := raw.grade.getD ""
              price := raw.price
              area := raw.area
              floors := raw.floors
              year := raw.year
              monthsOnMarket := derivedMonths today raw
              singleFloor := derivedSingleFloor raw
              source := source
              sourceUrl := raw.sourceUrl.getD ""
              scrapedAt := today })
      | _, _ => .error ()
    else .ok none
  | _ => .ok none

/-- The canonical listing built by `normalize_listing` once a truthy
numeric coordinate pair has been resolved. -/
noncomputable def builtListing (today : Date) (raw : RawRecord) (source : String)
    (x y : ℝ) : Listing :=
  { name := raw.name.getD "Unknown Office"
    address := raw.address.getD ""
    lat := some (pyRound7 x)
    lng := some (pyRound7 y)
    grade := raw.grade.getD ""
    price := raw.price
    area := raw.area
    floors := raw.floors
    year := raw.year
    monthsOnMarket := derivedMonths today raw
    singleFloor := derivedSingleFloor raw
    source := source
    sourceUrl := raw.sourceUrl.getD ""
    scrapedAt := today }

/-- A coordinate field that cannot make `round()` raise: absent, or a
number (never a string). -/
def numericOrAbsent : Option PyVal → Prop
  | some (.str _) => False
  | _ => True

/-! ### Concrete fixtures for witnesses and counterexamples -/

/-- A geocoder that never finds anything. -/
def geo0 : String → Option ℝ × Option ℝ := fun _ => (none, none)

/-- A fixed "today". -/
def d0 : Date := ⟨2024, 7, 15⟩

/-- A listing whose stored latitude is exactly 0 (non-null but falsy). -/
def zL : Listing := { lat := some 0, lng := some 1 }

/-- A listing at latitude 10, longitude 5. -/
def aL : Listing := { name := "A", lat := some 10, lng := some 5 }

/-- A second listing at the same coordinates as `aL`. -/
def bL : Listing := { name := "B", lat := some 10, lng := some 5 }

/-- A listing on `aL`'s meridian whose haversine distance from `aL` is
exactly 0.15 km. -/
noncomputable def b15 : Listing :=
  { name := "B15", lat := some (10 + (3 / 254840) * 360 / Real.pi), lng := some 5 }

/-- A listing on `aL`'s meridian whose haversine distance from `aL` is
exactly 0.05 km. -/
noncomputable def b05 : Listing :=
  { name := "B05", lat := some (10 + (1 / 254840) * 360 / Real.pi), lng := some 5 }

/-- A raw record with an out-of-range latitude. -/
def raw200 : RawRecord := { lat := some (.num 200), lng := some (.num 10) }

/-- A raw record with a floor count of 0 and no explicit `singleFloor`. -/
def rawF0 : RawRecord := { lat := some (.num 20), lng := some (.num 30), floors := some 0 }

/-- A raw record with a floor count of 2 and no explicit `singleFloor`. -/
def rawF2 : RawRecord := { lat := some (.num 20), lng := some (.num 30), floors := some 2 }

/-- A 150-character display name. -/
def longName : String := String.mk (List.replicate 150 'a')

/-- A raw record carrying `longName`. -/
def rawLong : RawRecord :=
  { name := some longName, lat := some (.num 20), lng := some (.num 30) }

/-- A raw record whose coordinate fields hold truthy non-numeric strings. -/
def rawBad : RawRecord := { lat := some (.str "abc"), lng := some (.str "x") }

/-- The empty raw record. -/
def rawEmpty : RawRecord := {}

/-! ### Helper lemmas -/

theorem pyRound7_intCast (n : ℤ) : pyRound7 ((n : ℤ) : ℝ) = (n : ℝ) := by
  unfold pyRound7
  have hcast : ((n : ℤ) : ℝ) * 10 ^ 7 = (((n * 10 ^ 7 : ℤ) : ℤ) : ℝ) := by push_cast; ring
  rw [hcast, Int.fract_intCast]
  rw [if_neg (by norm_num), round_intCast]
  push_cast
  ring

theorem pyRound7_ofNat (n : ℕ) : pyRound7 ((n : ℕ) : ℝ) = (n : ℝ) := by
  have h := pyRound7_intCast (n : ℤ)
  push_cast at h
  exact h

theorem haversine_self (a b : ℝ) : haversine a b a b = 0 := by
  unfold haversine
  rw [sub_self, sub_self, zero_div, Real.sin_zero]
  norm_num

theorem haversine_comm (a b c d : ℝ) : haversine a b c d = haversine c d a b := by
  unfold haversine
  rw [show radians a - radians c = -(radians c - radians a) by ring,
    show radians b - radians d = -(radians d - radians b) by ring,
    neg_div, neg_div, Real.sin_neg, Real.sin_neg, neg_sq, neg_sq,
    mul_comm (Real.cos (radians c)) (Real.cos (radians a))]

open Real in
/-- Two points on the same meridian at latitudes `l1` and `l1 + δ`:
the haversine distance is linear in `δ` while `radians δ / 2` stays within
`[0, π/2]`. -/
theorem haversine_sameLng (l1 g δ : ℝ) (h0 : 0 ≤ radians δ / 2)
    (h2 : radians δ / 2 ≤ π / 2) :
    haversine l1 g (l1 + δ) g = 6371 * 2 * (radians δ / 2) := by
  unfold haversine
  have hd : radians (l1 + δ) - radians l1 = radians δ := by unfold radians; ring
  rw [hd, sub_self, zero_div, Real.sin_zero]
  have hs : Real.sin (radians δ / 2) ^ 2 +
      Real.cos (radians l1) * Real.cos (radians (l1 + δ)) * 0 ^ 2 =
      Real.sin (radians δ / 2) ^ 2 := by ring
  rw [hs, Real.sqrt_sq (Real.sin_nonneg_of_nonneg_of_le_pi h0
    (le_trans h2 (by linarith [Real.pi_pos])))]
  rw [Real.arcsin_sin (by linarith [Real.pi_pos]) h2]

theorem haversine_const_dist (l1 g δ q : ℝ) (hδ : radians δ / 2 = q)
    (h0 : 0 ≤ q) (h2 : q ≤ Real.pi / 2) :
    haversine l1 g (l1 + δ) g = 6371 * 2 * q := by
  have h := haversine_sameLng l1 g δ (hδ ▸ h0) (hδ ▸ h2)
  rw [hδ] at h
  exact h

theorem isDup_nil (l : Listing) : ¬ isDup l [] := by
  simp [isDup]

theorem dedupStep_of_dup {l : Listing} {acc : List Listing} (h : isDup l acc) :
    dedupStep acc l = acc := by
  unfold dedupStep
  rw [if_pos h]

theorem dedupStep_of_not_dup {l : Listing} {acc : List Listing} (h : ¬ isDup l acc) :
    dedupStep acc l = acc ++ [l] := by
  unfold dedupStep
  rw [if_neg h]

theorem dedup_foldl_extends (ls : List Listing) :
    ∀ acc, ∃ r, ls.foldl dedupStep acc = acc ++ r := by
  induction ls with
  | nil => exact fun acc => ⟨[], by simp⟩
  | cons l ls ih =>
    intro acc
    by_cases h : isDup l acc
    · obtain ⟨r, hr⟩ := ih acc
      exact ⟨r, by simpa [List.foldl, dedupStep_of_dup h] using hr⟩
    · obtain ⟨r, hr⟩ := ih (acc ++ [l])
      refine ⟨l :: r, ?_⟩
      simp only [List.foldl, dedupStep_of_not_dup h]
      rw [hr, List.append_assoc]
      rfl

theorem isDup_append_right {l : Listing} {acc : List Listing} (h : isDup l acc)
    (r : List Listing) : isDup l (acc ++ r) := by
  obtain ⟨e, he, hp⟩ := h
  exact ⟨e, List.mem_append_left r he, hp⟩

theorem isDup_self {l : Listing} {acc : List Listing} (h1 : truthyR l.lat)
    (h2 : truthyR l.lng) (hmem : l ∈ acc) : isDup l acc := by
  refine ⟨l, hmem, h1, h2, h1, h2, ?_⟩
  rw [haversine_self]
  norm_num

theorem dedup_covers (ls : List Listing) :
    ∀ acc, ∀ x ∈ ls,
      isDup x (ls.foldl dedupStep acc) ∨ x ∈ ls.foldl dedupStep acc := by
  induction ls with
  | nil => intro acc x hx; cases hx
  | cons l ls ih =>
    intro acc x hx
    rcases List.mem_cons.mp hx with hxl | hxtl
    · subst hxl
      by_cases h : isDup x acc
      · left
        obtain ⟨r, hr⟩ := dedup_foldl_extends ls (dedupStep acc x)
        rw [List.foldl_cons, hr, dedupStep_of_dup h]
        exact isDup_append_right h r
      · right
        obtain ⟨r, hr⟩ := dedup_foldl_extends ls (dedupStep acc x)
        rw [List.foldl_cons, hr, dedupStep_of_not_dup h]
        simp
    · simpa [List.foldl_cons] using ih (dedupStep acc l) x hxtl

theorem dedup_fix (ls : List Listing) :
    ∀ acc, (∀ x ∈ ls, isDup x acc) → ls.foldl dedupStep acc = acc := by
  induction ls with
  | nil => intro acc _; rfl
  | cons l ls ih =>
    intro acc h
    rw [List.foldl_cons, dedupStep_of_dup (h l (List.mem_cons_self l ls))]
    exact ih acc fun x hx => h x (List.mem_cons_of_mem l hx)

theorem resolveCoords_of_truthy {raw : RawRecord} (geo : String → Option ℝ × Option ℝ)
    (h1 : truthyV raw.lat) (h2 : truthyV raw.lng) :
    resolveCoords geo raw = (raw.lat, raw.lng) := by
  unfold resolveCoords
  rw [if_neg (by push_neg; exact ⟨h1, h2⟩)]

theorem normalize_listing_eval (geo : String → Option ℝ × Option ℝ)
    (today : Date) (raw : RawRecord) (source : String) {x y : ℝ}
    (hlat : raw.lat = some (.num x)) (hlng : raw.lng = some (.num y))
    (hx : x ≠ 0) (hy : y ≠ 0) :
    normalize_listing geo today raw source = .ok (some (builtListing today raw source x y)) := by
  have h1 : truthyV raw.lat := by rw [hlat]; exact hx
  have h2 : truthyV raw.lng := by rw [hlng]; exact hy
  unfold normalize_listing
  rw [resolveCoords_of_truthy geo h1 h2, hlat, hlng]
  simp only
  rw [if_pos ⟨hx, hy⟩]
  rfl

theorem normalize_ok_some {geo : String → Option ℝ × Option ℝ} {today : Date}
    {raw : RawRecord} {source : String} {l : Listing}
    (h : normalize_listing geo today raw source = .ok (some l)) :
    ∃ x y, (resolveCoords geo raw) = (some (.num x), some (.num y)) ∧
      x ≠ 0 ∧ y ≠ 0 ∧ l = builtListing today raw source x y := by
  unfold normalize_listing at h
  rcases hc : resolveCoords geo raw with ⟨lv?, wv?⟩
  rw [hc] at h
  match lv?, wv? with
  | none, none => simp at h
  | none, some wv => simp at h
  | some lv, none => simp at h
  | some lv, some wv =>
    simp only at h
    by_cases ht : truthyPV lv ∧ truthyPV wv
    · rw [if_pos ht] at h
      match lv, wv with
      | .num x, .num y =>
        refine ⟨x, y, rfl, ht.1, ht.2, ?_⟩
        simpa [builtListing] using h.symm
      | .num x, .str t => simp at h
      | .str s, .num y => simp at h
      | .str s, .str t => simp at h
    · rw [if_neg ht] at h
      simp at h

theorem radians_q (q : ℝ) : radians (q * 360 / Real.pi) / 2 = q := by
  have hpi : Real.pi ≠ 0 := Real.pi_ne_zero
  unfold radians
  rw [show q * 360 / Real.pi * Real.pi / 180 / 2 = q * 360 / Real.pi * Real.pi / 360 by ring,
    div_mul_cancel₀ _ hpi, mul_div_assoc]
  norm_num

/-! ### Claims -/

/-- C8: if the existing persisted collection cannot be read or parsed, the
merge treats the new listings as the entire collection (it still returns a
deduplicated result, never aborting); otherwise it returns the
deduplication of the existing listings concatenated before the new ones. -/
theorem claim_C8 :
    (∀ newListings, merge_with_existing none newListings = deduplicate newListings) ∧
    (∀ newListings, merge_with_existing none newListings = mergeListings [] newListings) ∧
    (∀ existing newListings, merge_with_existing (some existing) newListings =
      deduplicate (existing ++ newListings)) :=
  ⟨fun _ => rfl, fun _ => rfl, fun _ _ => rfl⟩

/-- C2 counterexample: the claim quantifies over listings with *non-null*
coordinates, but a listing whose stored latitude is the non-null value 0 is
falsy under the truthiness guard of `deduplicate`, so it duplicates itself
under `merge(L, L)`. -/
theorem claim_C2_cex : mergeListings [zL] [zL] ≠ deduplicate [zL] := by
  have h1 : ¬ isDup zL [] := isDup_nil zL
  have h2 : ¬ isDup zL [zL] := by
    rintro ⟨e, _, hp⟩
    exact hp.1 rfl
  have e1 : deduplicate [zL] = [zL] := by
    unfold deduplicate
    rw [List.foldl_cons, dedupStep_of_not_dup h1]
    rfl
  have e2 : mergeListings [zL] [zL] = [zL, zL] := by
    unfold mergeListings deduplicate
    rw [show [zL] ++ [zL] = [zL, zL] from rfl, List.foldl_cons, dedupStep_of_not_dup h1,
      List.foldl_cons, List.nil_append, dedupStep_of_not_dup h2]
    rfl
  rw [e1, e2]
  simp

/-- C2 (amended): merging a collection with itself is idempotent up to
deduplication *provided every listing carries truthy (non-null and nonzero)
coordinates*: `merge(L, L) = deduplicate(L)`. -/
theorem claim_C2 (L : List Listing)
    (hL : ∀ l ∈ L, truthyR l.lat ∧ truthyR l.lng) :
    mergeListings L L = deduplicate L := by
  unfold mergeListings deduplicate
  rw [List.foldl_append]
  apply dedup_fix
  intro x hx
  rcases dedup_covers L [] x hx with h | h
  · exact h
  · exact isDup_self (hL x hx).1 (hL x hx).2 h

/-- C2 witness: a concrete one-listing collection with truthy coordinates. -/
theorem claim_C2_witness : mergeListings [aL] [aL] = deduplicate [aL] :=
  claim_C2 [aL] (by
    intro l hl
    rw [List.mem_singleton] at hl
    subst hl
    exact ⟨(by norm_num : (10:ℝ) ≠ 0), (by norm_num : (5:ℝ) ≠ 0)⟩)

/-- C3: deduplication is order-sensitive with first-seen-wins semantics:
for two listings with (truthy) coordinates within the 100 m threshold,
`merge([A], [B])` yields `[A]` and `merge([B], [A])` yields `[B]`; and the
first element of any input is always retained. -/
theorem claim_C3 :
    (∀ A B : Listing, truthyR A.lat → truthyR A.lng → truthyR B.lat → truthyR B.lng →
      haversine (A.lat.getD 0) (A.lng.getD 0) (B.lat.getD 0) (B.lng.getD 0) < 0.1 →
      mergeListings [A] [B] = [A] ∧ mergeListings [B] [A] = [B]) ∧
    (∀ (l : Listing) (ls : List Listing), ∃ r, deduplicate (l :: ls) = l :: r) := by
  constructor
  · intro A B hA1 hA2 hB1 hB2 hd
    have hAB : isDup B [A] :=
      ⟨A, List.mem_singleton_self A, hB1, hB2, hA1, hA2, by rw [haversine_comm]; exact hd⟩
    have hBA : isDup A [B] :=
      ⟨B, List.mem_singleton_self B, hA1, hA2, hB1, hB2, hd⟩
    constructor
    · unfold mergeListings deduplicate
      rw [show [A] ++ [B] = [A, B] from rfl, List.foldl_cons,
        dedupStep_of_not_dup (isDup_nil A), List.foldl_cons, List.nil_append,
        dedupStep_of_dup hAB]
      rfl
    · unfold mergeListings deduplicate
      rw [show [B] ++ [A] = [B, A] from rfl, List.foldl_cons,
        dedupStep_of_not_dup (isDup_nil B), List.foldl_cons, List.nil_append,
        dedupStep_of_dup hBA]
      rfl
  · intro l ls
    obtain ⟨r, hr⟩ := dedup_foldl_extends ls [l]
    refine ⟨r, ?_⟩
    unfold deduplicate
    rw [List.foldl_cons, dedupStep_of_not_dup (isDup_nil l), List.nil_append, hr]
    rfl

/-- C3 witness: two distinct listings at identical coordinates (distance 0,
within 100 m). -/
theorem claim_C3_witness : mergeListings [aL] [bL] = [aL] ∧ mergeListings [bL] [aL] = [bL] :=
  claim_C3.1 aL bL (by norm_num : (10:ℝ) ≠ 0) (by norm_num : (5:ℝ) ≠ 0)
    (by norm_num : (10:ℝ) ≠ 0) (by norm_num : (5:ℝ) ≠ 0)
    (show haversine 10 5 10 5 < 0.1 by rw [haversine_self]; norm_num)

/-- C4: the duplicate predicate is haversine distance against a fixed
0.1 km threshold: for listings with truthy coordinates, a pair at exactly
0.15 km is never merged, a pair at exactly 0.05 km always is, and an
incoming listing is a duplicate exactly when some already-accepted listing
with truthy coordinates lies within the threshold. -/
theorem claim_C4 :
    (∀ A B : Listing, truthyR A.lat → truthyR A.lng → truthyR B.lat → truthyR B.lng →
      (haversine (A.lat.getD 0) (A.lng.getD 0) (B.lat.getD 0) (B.lng.getD 0) = 0.15 →
        deduplicate [A, B] = [A, B]) ∧
      (haversine (A.lat.getD 0) (A.lng.getD 0) (B.lat.getD 0) (B.lng.getD 0) = 0.05 →
        deduplicate [A, B] = [A])) ∧
    (∀ (l : Listing) (acc : List Listing), truthyR l.lat → truthyR l.lng →
      (isDup l acc ↔ ∃ e ∈ acc, truthyR e.lat ∧ truthyR e.lng ∧
        haversine (l.lat.getD 0) (l.lng.getD 0) (e.lat.getD 0) (e.lng.getD 0) < 0.1)) := by
  constructor
  · intro A B hA1 hA2 hB1 hB2
    constructor
    · intro h15
      have hnd : ¬ isDup B [A] := by
        rintro ⟨e, he, hp⟩
        rw [List.mem_singleton] at he
        subst he
        have := hp.2.2.2.2
        rw [haversine_comm, h15] at this
        norm_num at this
      unfold deduplicate
      rw [List.foldl_cons, dedupStep_of_not_dup (isDup_nil A), List.foldl_cons,
        List.nil_append, dedupStep_of_not_dup hnd]
      rfl
    · intro h05
      have hd : isDup B [A] :=
        ⟨A, List.mem_singleton_self A, hB1, hB2, hA1, hA2, by
          rw [haversine_comm, h05]; norm_num⟩
      unfold deduplicate
      rw [List.foldl_cons, dedupStep_of_not_dup (isDup_nil A), List.foldl_cons,
        List.nil_append, dedupStep_of_dup hd]
      rfl
  · intro l acc h1 h2
    constructor
    · rintro ⟨e, he, hp⟩
      exact ⟨e, he, hp.2.2.1, hp.2.2.2.1, hp.2.2.2.2⟩
    · rintro ⟨e, he, he1, he2, hd⟩
      exact ⟨e, he, h1, h2, he1, he2, hd⟩

theorem hav_b15 : haversine 10 5 (10 + (3 / 254840) * 360 / Real.pi) 5 = 0.15 := by
  have hle : (3:ℝ) / 254840 ≤ Real.pi / 2 := by
    have h3 := Real.pi_gt_three
    have : (3:ℝ) / 254840 ≤ 3 / 2 := by norm_num
    linarith
  have h := haversine_const_dist 10 5 ((3 / 254840) * 360 / Real.pi) (3 / 254840)
    (radians_q (3 / 254840)) (by norm_num) hle
  rw [h]
  norm_num

theorem hav_b05 : haversine 10 5 (10 + (1 / 254840) * 360 / Real.pi) 5 = 0.05 := by
  have hle : (1:ℝ) / 254840 ≤ Real.pi / 2 := by
    have h3 := Real.pi_gt_three
    have : (1:ℝ) / 254840 ≤ 3 / 2 := by norm_num
    linarith
  have h := haversine_const_dist 10 5 ((1 / 254840) * 360 / Real.pi) (1 / 254840)
    (radians_q (1 / 254840)) (by norm_num) hle
  rw [h]
  norm_num

theorem lat_b15_ne : (10 + (3 / 254840) * 360 / Real.pi : ℝ) ≠ 0 :=
  ne_of_gt (by positivity)

theorem lat_b05_ne : (10 + (1 / 254840) * 360 / Real.pi : ℝ) ≠ 0 :=
  ne_of_gt (by positivity)

/-- C4 witness: a pair exactly 0.15 km apart stays two listings; a pair
exactly 0.05 km apart collapses to the first. -/
theorem claim_C4_witness :
    deduplicate [aL, b15] = [aL, b15] ∧ deduplicate [aL, b05] = [aL] :=
  ⟨(claim_C4.1 aL b15 (by norm_num : (10:ℝ) ≠ 0) (by norm_num : (5:ℝ) ≠ 0)
      lat_b15_ne (by norm_num : (5:ℝ) ≠ 0)).1 hav_b15,
    (claim_C4.1 aL b05 (by norm_num : (10:ℝ) ≠ 0) (by norm_num : (5:ℝ) ≠ 0)
      lat_b05_ne (by norm_num : (5:ℝ) ≠ 0)).2 hav_b05⟩

theorem pyRound7_200 : pyRound7 200 = 200 := by
  have h := pyRound7_intCast 200
  norm_num at h
  exact h

/-- C1 counterexample: `normalize_listing` performs no range validation, so
a raw record with latitude 200 is persisted with latitude 200, outside
[-90, 90]. -/
theorem claim_C1_cex :
    normalize_listing geo0 d0 raw200 "src" =
      .ok (some (builtListing d0 raw200 "src" 200 10)) ∧
    (builtListing d0 raw200 "src" 200 10).lat = some 200 ∧
    ¬ ((200:ℝ) ≤ 90) := by
  refine ⟨normalize_listing_eval geo0 d0 raw200 "src" rfl rfl
    (by norm_num) (by norm_num), ?_, by norm_num⟩
  show some (pyRound7 200) = some 200
  rw [pyRound7_200]

/-- C1 (amended): every listing returned by `normalize_listing` has
non-null latitude and longitude, and a record whose coordinates do not
resolve to a truthy pair is discarded (`None`) rather than persisted; the
code does **not**, however, validate that the coordinates lie within the
geographic ranges [-90, 90] / [-180, 180]. -/
theorem claim_C1 :
    (∀ geo today raw source l, normalize_listing geo today raw source = .ok (some l) →
      (∃ a, l.lat = some a) ∧ (∃ b, l.lng = some b)) ∧
    (∀ geo today raw source,
      ¬ (truthyV (resolveCoords geo raw).1 ∧ truthyV (resolveCoords geo raw).2) →
      normalize_listing geo today raw source = .ok none) := by
  constructor
  · intro geo today raw source l h
    obtain ⟨x, y, _, _, _, hl⟩ := normalize_ok_some h
    subst hl
    exact ⟨⟨pyRound7 x, rfl⟩, ⟨pyRound7 y, rfl⟩⟩
  · intro geo today raw source h
    unfold normalize_listing
    rcases hc : resolveCoords geo raw with ⟨lv?, wv?⟩
    rw [hc] at h
    match lv?, wv? with
    | none, none => rfl
    | none, some wv => rfl
    | some lv, none => rfl
    | some lv, some wv =>
      have h' : ¬ (truthyPV lv ∧ truthyPV wv) := h
      simp only
      rw [if_neg h']

/-- C1 witness: the output listing for `raw200` has both coordinates
non-null. -/
theorem claim_C1_witness :
    (∃ a, (builtListing d0 raw200 "src" 200 10).lat = some a) ∧
    (∃ b, (builtListing d0 raw200 "src" 200 10).lng = some b) :=
  claim_C1.1 geo0 d0 raw200 "src" _
    (normalize_listing_eval geo0 d0 raw200 "src" rfl rfl (by norm_num) (by norm_num))

theorem parseDate_month_bounds {s : String} {p : Date}
    (h : parseDate s = some p) : 1 ≤ p.month ∧ p.month ≤ 12 := by
  unfold parseDate at h
  repeat' split at h
  all_goals first
    | (cases h; done)
    | (cases h
       rename_i y m d hq1 hq2 hq3 hcond
       obtain ⟨-, -, -, -, h5, h6, -, -⟩ := hcond
       show (1:ℤ) ≤ (m:ℤ) ∧ (m:ℤ) ≤ 12
       exact ⟨by exact_mod_cast h5, by exact_mod_cast h6⟩)

theorem parseDate_empty : parseDate "" = none := by decide

/-- C5: `monthsOnMarket` prefers an explicit source month count;
otherwise it is derived from an ISO posting date as the month difference
against today, floored at 0 (never negative); otherwise it is null.
`"2024-01-15"` against today `2024-07-15` gives 6; a posting date after
today gives 0. -/
theorem claim_C5 :
    (∀ geo today raw source l m, normalize_listing geo today raw source = .ok (some l) →
      raw.monthsOnMarket = some m → l.monthsOnMarket = some m) ∧
    (∀ geo today raw source l (s : String),
      normalize_listing geo today raw source = .ok (some l) →
      raw.monthsOnMarket = none → raw.postingDate = some s → s ≠ "" →
      l.monthsOnMarket = calculate_months_on_market today (some s)) ∧
    (∀ geo today raw source l, normalize_listing geo today raw source = .ok (some l) →
      raw.monthsOnMarket = none → raw.postingDate = none →
      l.monthsOnMarket = none) ∧
    calculate_months_on_market ⟨2024, 7, 15⟩ (some "2024-01-15") = some 6 ∧
    (∀ t (s : String) p, parseDate s = some p → 1 ≤ t.month → t.month ≤ 12 →
      dateBefore t p → calculate_months_on_market t (some s) = some 0) ∧
    (∀ t s m, calculate_months_on_market t s = some m → 0 ≤ m) := by
  refine ⟨?_, ?_, ?_, by decide, ?_, ?_⟩
  · intro geo today raw source l m h hm
    obtain ⟨x, y, _, _, _, hl⟩ := normalize_ok_some h
    subst hl
    show derivedMonths today raw = some m
    unfold derivedMonths
    rw [hm]
  · intro geo today raw source l s h hm hp hs
    obtain ⟨x, y, _, _, _, hl⟩ := normalize_ok_some h
    subst hl
    show derivedMonths today raw = _
    unfold derivedMonths
    rw [hm, hp]
    show (if s ≠ "" then calculate_months_on_market today (some s) else none) = _
    rw [if_pos hs]
  · intro geo today raw source l h hm hp
    obtain ⟨x, y, _, _, _, hl⟩ := normalize_ok_some h
    subst hl
    show derivedMonths today raw = none
    unfold derivedMonths
    rw [hm, hp]
  · intro t s p hp h1 h12 hb
    have hs : s ≠ "" := by
      intro he
      rw [he, parseDate_empty] at hp
      cases hp
    have hpm := parseDate_month_bounds hp
    unfold calculate_months_on_market
    show (if s = "" then (none : Option ℤ)
        else match parseDate s with
          | some posted =>
              some (0 ⊔ ((t.year - posted.year) * 12 + (t.month - posted.month)))
          | none => none) = some 0
    rw [if_neg hs, hp]
    show some (0 ⊔ ((t.year - p.year) * 12 + (t.month - p.month))) = some 0
    have hk : (t.year - p.year) * 12 + (t.month - p.month) ≤ 0 := by
      rcases hb with hy | ⟨hy, hm | ⟨hm, hd⟩⟩
      · have hy1 : t.year - p.year ≤ -1 := by omega
        nlinarith [hpm.1, hpm.2, h1, h12]
      · omega
      · omega
    rw [max_eq_left hk]
  · intro t s m h
    match s with
    | none => cases h
    | some str =>
      have h' : (if str = "" then (none : Option ℤ)
          else match parseDate str with
            | some posted =>
                some (0 ⊔ ((t.year - posted.year) * 12 + (t.month - posted.month)))
            | none => none) = some m := h
      by_cases he : str = ""
      · rw [if_pos he] at h'
        cases h'
      · rw [if_neg he] at h'
        match hp : parseDate str with
        | none => rw [hp] at h'; cases h'
        | some p =>
          rw [hp] at h'
          injection h' with h''
          exact h'' ▸ le_max_left 0 _

/-- C5 witness: a posting date after today yields 0 months on market. -/
theorem claim_C5_witness :
    calculate_months_on_market ⟨2024, 7, 15⟩ (some "2024-09-01") = some 0 :=
  claim_C5.2.2.2.2.1 ⟨2024, 7, 15⟩ "2024-09-01" ⟨2024, 9, 1⟩ (by decide)
    (by decide) (by decide) (by decide)

/-- C6 counterexample: a raw record with a present floor count of 0 and no
explicit boolean yields `singleFloor = None`, not `False`, because the
guard `if single_floor is None and floors:` tests the floor count by
truthiness and 0 is falsy. -/
theorem claim_C6_cex :
    normalize_listing geo0 d0 rawF0 "src" =
      .ok (some (builtListing d0 rawF0 "src" 20 30)) ∧
    rawF0.singleFloor = none ∧ rawF0.floors = some 0 ∧
    (builtListing d0 rawF0 "src" 20 30).singleFloor = none ∧
    (builtListing d0 rawF0 "src" 20 30).singleFloor ≠ some false := by
  refine ⟨normalize_listing_eval geo0 d0 rawF0 "src" rfl rfl
    (by norm_num) (by norm_num), rfl, rfl, ?_, ?_⟩
  · show derivedSingleFloor rawF0 = none
    decide
  · show derivedSingleFloor rawF0 ≠ some false
    decide

/-- C6 (amended): an explicit boolean is preferred; otherwise, when a
*nonzero* floor count is present, `singleFloor` is true iff the floor count
equals exactly 1; when the floor count is absent *or equal to 0 (falsy)*,
`singleFloor` is null. -/
theorem claim_C6 :
    (∀ geo today raw source l b, normalize_listing geo today raw source = .ok (some l) →
      raw.singleFloor = some b → l.singleFloor = some b) ∧
    (∀ geo today raw source l n, normalize_listing geo today raw source = .ok (some l) →
      raw.singleFloor = none → raw.floors = some n → n ≠ 0 →
      l.singleFloor = some (decide (n = 1))) ∧
    (∀ geo today raw source l, normalize_listing geo today raw source = .ok (some l) →
      raw.singleFloor = none → (raw.floors = none ∨ raw.floors = some 0) →
      l.singleFloor = none) := by
  refine ⟨?_, ?_, ?_⟩
  · intro geo today raw source l b h hb
    obtain ⟨x, y, _, _, _, hl⟩ := normalize_ok_some h
    subst hl
    show derivedSingleFloor raw = some b
    unfold derivedSingleFloor
    rw [hb]
  · intro geo today raw source l n h hb hf hn
    obtain ⟨x, y, _, _, _, hl⟩ := normalize_ok_some h
    subst hl
    show derivedSingleFloor raw = some (decide (n = 1))
    unfold derivedSingleFloor
    rw [hb, hf]
    show (if n ≠ 0 then some (decide (n = 1)) else none) = some (decide (n = 1))
    rw [if_pos hn]
  · intro geo today raw source l h hb hf
    obtain ⟨x, y, _, _, _, hl⟩ := normalize_ok_some h
    subst hl
    show derivedSingleFloor raw = none
    unfold derivedSingleFloor
    rw [hb]
    rcases hf with hf | hf
    · rw [hf]
    · rw [hf]
      show (if (0:ℤ) ≠ 0 then some (decide ((0:ℤ) = 1)) else none) = none
      rw [if_neg (by norm_num)]

/-- C6 witness: a floor count of 2 yields `singleFloor = false`. -/
theorem claim_C6_witness :
    (builtListing d0 rawF2 "src" 20 30).singleFloor = some false := by
  have h := claim_C6.2.1 geo0 d0 rawF2 "src" _ 2
    (normalize_listing_eval geo0 d0 rawF2 "src" rfl rfl (by norm_num) (by norm_num))
    rfl rfl (by norm_num)
  simpa using h

/-- C7 counterexample: `normalize_listing` does not truncate the name — a
150-character raw name is persisted in full, beyond the 100-character bound
the site adapters use. -/
theorem claim_C7_cex :
    normalize_listing geo0 d0 rawLong "src" =
      .ok (some (builtListing d0 rawLong "src" 20 30)) ∧
    (builtListing d0 rawLong "src" 20 30).name = longName ∧
    100 < longName.length := by
  refine ⟨normalize_listing_eval geo0 d0 rawLong "src" rfl rfl
    (by norm_num) (by norm_num), rfl, ?_⟩
  show 100 < (String.mk (List.replicate 150 'a')).length
  simp [String.length]

/-- C7 (amended): the name defaults to the placeholder `"Unknown Office"`
when the raw record has no name and the address defaults to the empty
string when absent, so neither propagates as null; but `normalize_listing`
itself performs no truncation (name truncation to 100 characters happens in
the site adapters, not here). -/
theorem claim_C7 :
    (∀ geo today raw source l, normalize_listing geo today raw source = .ok (some l) →
      l.name = raw.name.getD "Unknown Office" ∧ l.address = raw.address.getD "") ∧
    (∀ geo today raw source l, normalize_listing geo today raw source = .ok (some l) →
      raw.name = none → l.name = "Unknown Office") ∧
    (∀ geo today raw source l, normalize_listing geo today raw source = .ok (some l) →
      raw.address = none → l.address = "") := by
  refine ⟨?_, ?_, ?_⟩
  · intro geo today raw source l h
    obtain ⟨x, y, _, _, _, hl⟩ := normalize_ok_some h
    subst hl
    exact ⟨rfl, rfl⟩
  · intro geo today raw source l h hn
    obtain ⟨x, y, _, _, _, hl⟩ := normalize_ok_some h
    subst hl
    show raw.name.getD "Unknown Office" = "Unknown Office"
    rw [hn]
    rfl
  · intro geo today raw source l h ha
    obtain ⟨x, y, _, _, _, hl⟩ := normalize_ok_some h
    subst hl
    show raw.address.getD "" = ""
    rw [ha]
    rfl

/-- C7 witness: `raw200` has no name and no address, so the normalized
record gets the placeholder name and the empty address. -/
theorem claim_C7_witness :
    (builtListing d0 raw200 "src" 200 10).name = "Unknown Office" ∧
    (builtListing d0 raw200 "src" 200 10).address = "" := by
  have h := claim_C7.1 geo0 d0 raw200 "src" _
    (normalize_listing_eval geo0 d0 raw200 "src" rfl rfl (by norm_num) (by norm_num))
  simpa using h

theorem resolveCoords_numeric (geo : String → Option ℝ × Option ℝ) {raw : RawRecord}
    (h1 : numericOrAbsent raw.lat) (h2 : numericOrAbsent raw.lng) :
    numericOrAbsent (resolveCoords geo raw).1 ∧ numericOrAbsent (resolveCoords geo raw).2 := by
  unfold resolveCoords
  split
  · split
    · constructor
      · rcases (geo (raw.address.getD "")).1 with _ | a <;> trivial
      · rcases (geo (raw.address.getD "")).2 with _ | b <;> trivial
    · exact ⟨h1, h2⟩
  · exact ⟨h1, h2⟩

/-- C9 counterexample: a raw record whose coordinate fields hold truthy
non-numeric strings makes `normalize_listing` raise (the `TypeError` of
`round("abc", 7)`), modelled as `.error ()`. -/
theorem claim_C9_cex : normalize_listing geo0 d0 rawBad "src" = .error () := by
  have h1 : truthyV rawBad.lat := by
    show "abc" ≠ ""
    decide
  have h2 : truthyV rawBad.lng := by
    show "x" ≠ ""
    decide
  unfold normalize_listing
  rw [resolveCoords_of_truthy geo0 h1 h2,
    show rawBad.lat = some (PyVal.str "abc") from rfl,
    show rawBad.lng = some (PyVal.str "x") from rfl]
  simp only
  rw [if_pos ⟨h1, h2⟩]

/-- C9 (amended): `normalize_listing` raises no exception *provided the
coordinate fields, when present, are numeric* (which the site adapters
guarantee); in particular a malformed posting date degrades
`monthsOnMarket` to null rather than aborting the record.  A truthy
non-numeric coordinate string, however, escapes as an uncaught
`TypeError`. -/
theorem claim_C9 :
    (∀ geo today raw source, numericOrAbsent raw.lat → numericOrAbsent raw.lng →
      ∃ r, normalize_listing geo today raw source = .ok r) ∧
    (∀ today (s : String), parseDate s = none →
      calculate_months_on_market today (some s) = none) := by
  constructor
  · intro geo today raw source h1 h2
    have hn := resolveCoords_numeric geo h1 h2
    unfold normalize_listing
    rcases hc : resolveCoords geo raw with ⟨lv?, wv?⟩
    rw [hc] at hn
    match lv?, wv? with
    | none, none => exact ⟨none, rfl⟩
    | none, some wv => exact ⟨none, rfl⟩
    | some lv, none => exact ⟨none, rfl⟩
    | some lv, some wv =>
      match lv, wv with
      | .num x, .num y =>
        by_cases ht : truthyPV (PyVal.num x) ∧ truthyPV (PyVal.num y)
        · refine ⟨some (builtListing today raw source x y), ?_⟩
          simp only
          rw [if_pos ht]
          rfl
        · refine ⟨none, ?_⟩
          simp only
          rw [if_neg ht]
      | .num x, .str t => exact absurd hn.2 (by simp [numericOrAbsent])
      | .str s, .num y => exact absurd hn.1 (by simp [numericOrAbsent])
      | .str s, .str t => exact absurd hn.1 (by simp [numericOrAbsent])
  · intro today s hp
    by_cases he : s = ""
    · subst he
      rfl
    · show (if s = "" then (none : Option ℤ)
          else match parseDate s with
            | some posted =>
                some (0 ⊔ ((today.year - posted.year) * 12 + (today.month - posted.month)))
            | none => none) = none
      rw [if_neg he, hp]

/-- C9 witness: the empty raw record (no coordinates at all) normalizes
without an exception, to a discard. -/
theorem claim_C9_witness : ∃ r, normalize_listing geo0 d0 rawEmpty "src" = .ok r :=
  claim_C9.1 geo0 d0 rawEmpty "src" trivial trivial

/-- C10: a raw record whose explicit latitude (resp. longitude) equals 0 is
treated by `normalize_listing` exactly as if that coordinate were absent
(falling through to geocoding or discard), because presence is tested by
truthiness; and in `deduplicate` a listing with a zero coordinate is never
classified as a duplicate and is always retained. -/
theorem claim_C10 :
    (∀ (geo : String → Option ℝ × Option ℝ) (today : Date) (raw : RawRecord)
        (source : String),
      normalize_listing geo today { raw with lat := some (.num 0) } source =
        normalize_listing geo today { raw with lat := none } source) ∧
    (∀ (geo : String → Option ℝ × Option ℝ) (today : Date) (raw : RawRecord)
        (source : String),
      normalize_listing geo today { raw with lng := some (.num 0) } source =
        normalize_listing geo today { raw with lng := none } source) ∧
    (∀ (l : Listing) (acc : List Listing), l.lat = some 0 ∨ l.lng = some 0 →
      ¬ isDup l acc ∧ dedupStep acc l = acc ++ [l]) := by
  have h0 : ¬ truthyV (some (PyVal.num 0)) := fun h => h rfl
  have hnone : ¬ truthyV (none : Option PyVal) := fun h => h
  refine ⟨?_, ?_, ?_⟩
  · intro geo today raw source
    by_cases ha : raw.address.getD "" ≠ ""
    · have e0 : resolveCoords geo { raw with lat := some (.num 0) } =
          ((geo (raw.address.getD "")).1.map PyVal.num,
            (geo (raw.address.getD "")).2.map PyVal.num) := by
        unfold resolveCoords
        rw [if_pos (Or.inl h0), if_pos ha]
      have eN : resolveCoords geo { raw with lat := none } =
          ((geo (raw.address.getD "")).1.map PyVal.num,
            (geo (raw.address.getD "")).2.map PyVal.num) := by
        unfold resolveCoords
        rw [if_pos (Or.inl hnone), if_pos ha]
      unfold normalize_listing
      rw [e0, eN]
      rfl
    · have ha' : ¬ (raw.address.getD "" ≠ "") := not_not_intro (not_ne_iff.mp ha)
      have e0 : resolveCoords geo { raw with lat := some (.num 0) } =
          (some (.num 0), raw.lng) := by
        unfold resolveCoords
        rw [if_pos (Or.inl h0), if_neg ha']
      have eN : resolveCoords geo { raw with lat := none } = (none, raw.lng) := by
        unfold resolveCoords
        rw [if_pos (Or.inl hnone), if_neg ha']
      unfold normalize_listing
      rw [e0, eN]
      rcases raw.lng with _ | wv
      · rfl
      · have hng : ¬ (truthyPV (PyVal.num 0) ∧ truthyPV wv) := fun hc => hc.1 rfl
        simp only
        rw [if_neg hng]
  · intro geo today raw source
    by_cases ha : raw.address.getD "" ≠ ""
    · have e0 : resolveCoords geo { raw with lng := some (.num 0) } =
          ((geo (raw.address.getD "")).1.map PyVal.num,
            (geo (raw.address.getD "")).2.map PyVal.num) := by
        unfold resolveCoords
        rw [if_pos (Or.inr h0), if_pos ha]
      have eN : resolveCoords geo { raw with lng := none } =
          ((geo (raw.address.getD "")).1.map PyVal.num,
            (geo (raw.address.getD "")).2.map PyVal.num) := by
        unfold resolveCoords
        rw [if_pos (Or.inr hnone), if_pos ha]
      unfold normalize_listing
      rw [e0, eN]
      rfl
    · have ha' : ¬ (raw.address.getD "" ≠ "") := not_not_intro (not_ne_iff.mp ha)
      have e0 : resolveCoords geo { raw with lng := some (.num 0) } =
          (raw.lat, some (.num 0)) := by
        unfold resolveCoords
        rw [if_pos (Or.inr h0), if_neg ha']
      have eN : resolveCoords geo { raw with lng := none } = (raw.lat, none) := by
        unfold resolveCoords
        rw [if_pos (Or.inr hnone), if_neg ha']
      unfold normalize_listing
      rw [e0, eN]
      rcases raw.lat with _ | lv
      · rfl
      · have hng : ¬ (truthyPV lv ∧ truthyPV (PyVal.num 0)) := fun hc => hc.2 rfl
        simp only
        rw [if_neg hng]
  · intro l acc h
    have hnd : ¬ isDup l acc := by
      rintro ⟨e, _, h1, h2, _⟩
      rcases h with h | h
      · rw [h] at h1
        exact h1 rfl
      · rw [h] at h2
        exact h2 rfl
    exact ⟨hnd, dedupStep_of_not_dup hnd⟩

/-- C10 witness: the zero-latitude listing `zL` is never a duplicate and is
always appended. -/
theorem claim_C10_witness : ¬ isDup zL [aL] ∧ dedupStep [aL] zL = [aL] ++ [zL] :=
  claim_C10.2.2 zL [aL] (Or.inl rfl)

end Scraper
